import Mathlib

/-!
Verification of the spatial telemetry rendering core of AdvantageScope
(`ThreeDimensionVisualizer.ts` together with the odometry controller's
telemetry-to-geometry extraction in `getCommand`).

The TypeScript source is shallowly embedded below: configuration values are
rationals (the JSON configs carry plain numbers), quaternions produced by the
rotation-sequence utility live over the reals (three.js trigonometry), and the
mutable visualizer object is an explicit state record transformed by pure
functions, one per section of `renderFrame` plus one per asynchronous
load-completion callback.
-/

namespace AdvantageScope

/-! ## Basic data model -/

/-- `Config3d_Rotation` from `FRCData`: an axis name (`"x"`, `"y"` or `"z"`)
and an angle in degrees. -/
structure Config3dRotation where
  axis : String
  degrees : ℚ
  deriving DecidableEq, Repr

/-- A camera mount declared by a robot asset (name, rotation sequence,
position offset, pixel resolution, diagonal field of view). -/
structure CameraConfig where
  name : String
  rotations : List Config3dRotation
  position : ℚ × ℚ × ℚ
  resolution : ℚ × ℚ
  fov : ℚ
  deriving DecidableEq, Repr

/-- A robot asset descriptor (`frcData.robots` entry). -/
structure RobotConfig where
  title : String
  path : String
  rotations : List Config3dRotation
  position : ℚ × ℚ × ℚ
  cameras : List CameraConfig
  deriving DecidableEq, Repr

/-- A 3D field asset descriptor (`frcData.field3ds` entry). -/
structure FieldConfig where
  title : String
  path : String
  rotations : List Config3dRotation
  widthInches : ℚ
  heightInches : ℚ
  deriving DecidableEq, Repr

/-- The asset catalog (`window.frcData`): available 3D fields and robots. -/
structure FrcData where
  field3ds : List FieldConfig
  robots : List RobotConfig
  deriving DecidableEq, Repr

/-- A 3D pose as consumed by the visualizer: position `[x, y, z]` and
rotation quaternion `[w, x, y, z]` (source interface `Pose3d`). -/
structure Pose3dQ where
  position : ℚ × ℚ × ℚ
  rotation : ℚ × ℚ × ℚ × ℚ
  deriving DecidableEq, Repr

/-! ## Quaternions (three.js semantics)

The visualizer composes orientations with `THREE.Quaternion`.  We embed the
components as reals and the product as three.js `multiplyQuaternions`
computes it. -/

/-- A quaternion with the three.js component layout `(x, y, z, w)`. -/
@[ext]
structure Quat where
  x : ℝ
  y : ℝ
  z : ℝ
  w : ℝ

/-- three.js `Quaternion.multiplyQuaternions(a, b)` (Hamilton product `a * b`). -/
noncomputable def quatMul (a b : Quat) : Quat :=
  { x := a.x * b.w + a.w * b.x + a.y * b.z - a.z * b.y
    y := a.y * b.w + a.w * b.y + a.z * b.x - a.x * b.z
    z := a.z * b.w + a.w * b.z + a.x * b.y - a.y * b.x
    w := a.w * b.w - a.x * b.x - a.y * b.y - a.z * b.z }

/-- The identity quaternion `new THREE.Quaternion()`. -/
noncomputable def quatIdentity : Quat := ⟨0, 0, 0, 1⟩

/-- three.js `q.premultiply(p)` replaces `q` by `p * q`. -/
noncomputable def Quat.premultiply (q p : Quat) : Quat := quatMul p q

/-- three.js `Quaternion.setFromAxisAngle(axis, angle)` (axis assumed unit,
angle in radians). -/
noncomputable def setFromAxisAngle (axis : ℝ × ℝ × ℝ) (angle : ℝ) : Quat :=
  { x := axis.1 * Real.sin (angle / 2)
    y := axis.2.1 * Real.sin (angle / 2)
    z := axis.2.2 * Real.sin (angle / 2)
    w := Real.cos (angle / 2) }

/-- The axis vector built in `getQuaternionFromRotSeq`: starts at `(0,0,0)`
and sets the matching component to 1 (an unrecognized axis name yields the
zero vector, as in the source). -/
noncomputable def axisVec (axis : String) : ℝ × ℝ × ℝ :=
  let v : ℝ × ℝ × ℝ := (0, 0, 0)
  let v := if axis = "x" then (1, v.2.1, v.2.2) else v
  let v := if axis = "y" then (v.1, 1, v.2.2) else v
  let v := if axis = "z" then (v.1, v.2.1, 1) else v
  v

/-- Modelled from the spec: the shared unit-conversion helper
(`convert(x, "degrees", "radians")` from `shared/units`, not part of this
excerpt) normalizes angles to radians; degrees convert by the standard factor
`pi / 180`. -/
noncomputable def degToRad (degrees : ℚ) : ℝ := (degrees : ℝ) * (Real.pi / 180)

/-- The unit rotation for one entry of a rotation sequence. -/
noncomputable def rotUnit (r : Config3dRotation) : Quat :=
  setFromAxisAngle (axisVec r.axis) (degToRad r.degrees)

/-- `ThreeDimensionVisualizer.getQuaternionFromRotSeq`: folds over the
sequence in list order, pre-multiplying each unit rotation onto the
accumulated quaternion. -/
noncomputable def getQuaternionFromRotSeq (rotations : List Config3dRotation) : Quat :=
  rotations.foldl (fun quaternion rotation => quaternion.premultiply (rotUnit rotation))
    quatIdentity

/-- Modelled from the spec's words for comparison (claim C3): "compose a
single orientation by pre-multiplying unit rotations in reverse list order
— i.e., the first listed rotation is applied last in world space": walk the
list in reverse order, pre-multiplying each unit rotation, which yields the
product `u_1 * u_2 * ... * u_n` (first listed rotation outermost, applied
last in world space). -/
noncomputable def specRotSeqComposition (rotations : List Config3dRotation) : Quat :=
  rotations.reverse.foldl (fun quaternion rotation => quaternion.premultiply (rotUnit rotation))
    quatIdentity

/-! ### Quaternion algebra helper lemmas -/

lemma quatMul_assoc (a b c : Quat) : quatMul (quatMul a b) c = quatMul a (quatMul b c) := by
  ext <;> simp [quatMul] <;> ring

lemma quatMul_quatIdentity (a : Quat) : quatMul a quatIdentity = a := by
  ext <;> simp [quatMul, quatIdentity]

lemma quatIdentity_quatMul (a : Quat) : quatMul quatIdentity a = a := by
  ext <;> simp [quatMul, quatIdentity]

lemma foldr_quatMul_seed (l : List Quat) (s : Quat) :
    l.foldr quatMul s = quatMul (l.foldr quatMul quatIdentity) s := by
  induction l with
  | nil => simp [quatIdentity_quatMul]
  | cons a l ih => simp only [List.foldr_cons, ih, quatMul_assoc]

lemma foldl_premultiply_eq (l : List Config3dRotation) (q : Quat) :
    l.foldl (fun quaternion rotation => quaternion.premultiply (rotUnit rotation)) q =
      quatMul (getQuaternionFromRotSeq l) q := by
  induction l generalizing q with
  | nil => simp [getQuaternionFromRotSeq, quatIdentity_quatMul]
  | cons r rest ih =>
    have h2 : getQuaternionFromRotSeq (r :: rest) =
        quatMul (getQuaternionFromRotSeq rest) (Quat.premultiply quatIdentity (rotUnit r)) := by
      simp only [getQuaternionFromRotSeq, List.foldl_cons]
      exact ih _
    simp only [List.foldl_cons]
    rw [ih (q.premultiply (rotUnit r)), h2]
    simp only [Quat.premultiply, quatMul_quatIdentity, quatMul_assoc]

lemma getQuaternionFromRotSeq_cons (r : Config3dRotation) (rest : List Config3dRotation) :
    getQuaternionFromRotSeq (r :: rest) = quatMul (getQuaternionFromRotSeq rest) (rotUnit r) := by
  have h := foldl_premultiply_eq rest (Quat.premultiply quatIdentity (rotUnit r))
  simp only [getQuaternionFromRotSeq, List.foldl_cons] at h ⊢
  simpa [Quat.premultiply, quatMul_quatIdentity] using h

/-- The concrete rotation sequence used to separate the two composition
orders: 90 degrees about x, then 90 degrees about y. -/
def c3RotList : List Config3dRotation := [⟨"x", 90⟩, ⟨"y", 90⟩]

lemma rotUnit_x90 : rotUnit ⟨"x", 90⟩ =
    ⟨Real.sin (degToRad 90 / 2), 0, 0, Real.cos (degToRad 90 / 2)⟩ := by
  simp [rotUnit, setFromAxisAngle, axisVec]

lemma rotUnit_y90 : rotUnit ⟨"y", 90⟩ =
    ⟨0, Real.sin (degToRad 90 / 2), 0, Real.cos (degToRad 90 / 2)⟩ := by
  simp [rotUnit, setFromAxisAngle, axisVec]

lemma sin_half_deg90_pos : 0 < Real.sin (degToRad 90 / 2) := by
  have h : degToRad 90 / 2 = Real.pi / 4 := by
    simp only [degToRad]
    push_cast
    ring
  rw [h, Real.sin_pi_div_four]
  positivity

/-- C3 counterexample: on the two-step sequence (x 90°, y 90°) the utility's
result differs from the orientation described by the claim (pre-multiplying
the unit rotations in reverse list order, first listed rotation applied last
in world space): the two products disagree in their z component. -/
theorem claim_c3_counterexample :
    getQuaternionFromRotSeq c3RotList ≠ specRotSeqComposition c3RotList := by
  intro h
  have hpair : ∀ r1 r2 : Config3dRotation,
      getQuaternionFromRotSeq [r1, r2] = quatMul (rotUnit r2) (rotUnit r1) := by
    intro r1 r2
    rw [getQuaternionFromRotSeq_cons, getQuaternionFromRotSeq_cons]
    show quatMul (quatMul quatIdentity _) _ = _
    rw [quatIdentity_quatMul]
  have h1 : getQuaternionFromRotSeq c3RotList =
      quatMul (rotUnit ⟨"y", 90⟩) (rotUnit ⟨"x", 90⟩) := hpair _ _
  have h2 : specRotSeqComposition c3RotList =
      quatMul (rotUnit ⟨"x", 90⟩) (rotUnit ⟨"y", 90⟩) := by
    show getQuaternionFromRotSeq [⟨"y", 90⟩, ⟨"x", 90⟩] = _
    exact hpair _ _
  rw [h1, h2, rotUnit_x90, rotUnit_y90] at h
  have hz := congrArg Quat.z h
  simp only [quatMul] at hz
  have hs := sin_half_deg90_pos
  nlinarith [hz, hs]

/-- C3 (amended): `getQuaternionFromRotSeq` pre-multiplies each successive
unit rotation in list order, so it produces the product of the unit rotations
taken in reverse list order (`u_n * ... * u_1`); equivalently the first
listed rotation is the innermost (rightmost) factor, i.e. the one applied
first in world space. -/
theorem claim_c3_amended :
    (∀ rotations : List Config3dRotation,
        getQuaternionFromRotSeq rotations =
          (rotations.map rotUnit).reverse.foldr quatMul quatIdentity) ∧
    (∀ (r : Config3dRotation) (rest : List Config3dRotation),
        getQuaternionFromRotSeq (r :: rest) =
          quatMul (getQuaternionFromRotSeq rest) (rotUnit r)) := by
  constructor
  · intro rotations
    induction rotations with
    | nil => rfl
    | cons r rest ih =>
      rw [getQuaternionFromRotSeq_cons, ih]
      rw [List.map_cons, List.reverse_cons, List.foldr_append]
      simp only [List.foldr_cons, List.foldr_nil]
      rw [foldr_quatMul_seed ((rest.map rotUnit).reverse) (quatMul (rotUnit r) quatIdentity),
        quatMul_quatIdentity]
  · intro r rest
    exact getQuaternionFromRotSeq_cons r rest

/-! ## Coordinate frame pipeline (renderFrame, "Update field coordinates") -/

/-- Modelled from the spec: `convert(x, "inches", "meters")` from the shared
units module (not part of this excerpt); inches convert to meters by the
standard factor 0.0254. -/
def inchesToMeters (x : ℚ) : ℚ := x * (254 / 10000)

/-- The translation set on `wpilibFieldCoordinateGroup` each frame
(`renderFrame` lines 309–313). -/
def fieldFramePosition (isBlue : Bool) (fieldConfig : FieldConfig) : ℚ × ℚ × ℚ :=
  (inchesToMeters (fieldConfig.widthInches / 2) * (if isBlue then -1 else 1),
   inchesToMeters (fieldConfig.heightInches / 2) * (if isBlue then -1 else 1),
   0)

/-- The axis-angle rotation set on `wpilibFieldCoordinateGroup`
(`renderFrame` line 308): axis `(0, 0, 1)` and angle `0` or `pi` radians. -/
noncomputable def fieldFrameRotation (isBlue : Bool) : (ℚ × ℚ × ℚ) × ℝ :=
  ((0, 0, 1), if isBlue then 0 else Real.pi)

/-! ## Telemetry-to-geometry extraction (OdometryController.getCommand) -/

/-- A 2D pose produced by the extraction engine (`shared/geometry.Pose2d`). -/
structure Pose2d where
  translation : ℚ × ℚ
  rotation : ℚ
  deriving DecidableEq, Repr

/-- The result shape of `window.log.getNumberArray(key, t0, t1)`: parallel
arrays of timestamps and numeric-array values. -/
structure NumberArrayResult where
  timestamps : List ℚ
  values : List (List ℚ)
  deriving DecidableEq, Repr

/-- `getCurrentValue` from `OdometryController.getCommand` (lines 680–711).
The shared units module is not part of this excerpt, so, modelled from the
spec's "unit-normalized to meters/radians using the declared units", the
embedding takes the two conversion factors as parameters: `ud` (declared
distance unit → meters) and `ur` (declared rotation unit → radians), and
`convert` is multiplication by the factor.  In the source, an empty
timestamp array makes `logData.timestamps[0] <= time` compare `undefined`
and fail, yielding `[]`. -/
def getCurrentValue (ud ur : ℚ) (time : ℚ) (logData : Option NumberArrayResult) :
    List Pose2d :=
  match logData with
  | none => []
  | some d =>
    match d.timestamps.head? with
    | none => []
    | some t0 =>
      let value := d.values.headD []
      if t0 ≤ time ∧ (value.length = 2 ∨ value.length % 3 = 0) then
        if value.length = 2 then
          [{ translation := (ud * value.getD 0 0, ud * value.getD 1 0), rotation := 0 }]
        else
          (List.range (value.length / 3)).map (fun i =>
            { translation := (ud * value.getD (3 * i) 0, ud * value.getD (3 * i + 1) 0),
              rotation := ur * value.getD (3 * i + 2) 0 })
      else []

/-- `TRAIL_LENGTH_SECS` from `OdometryController`. -/
def TRAIL_LENGTH_SECS : ℚ := 5

/-- The trail-window trim (`getCommand` lines 736–744): `shift` both arrays
when the first timestamp is more than the window length before `time`, then
`pop` both arrays when the last remaining timestamp is more than the window
length after `time`.  On an empty array the JS index expression is
`undefined` and the comparison fails, so nothing is dropped. -/
def trimTrail (time : ℚ) (d : List ℚ × List (List ℚ)) : List ℚ × List (List ℚ) :=
  let d1 := match d.1.head? with
    | none => d
    | some t0 => if time - t0 > TRAIL_LENGTH_SECS then (d.1.tail, d.2.tail) else d
  match d1.1.getLast? with
  | none => d1
  | some tl => if tl - time > TRAIL_LENGTH_SECS then (d1.1.dropLast, d1.2.dropLast) else d1

/-- `HEATMAP_DT` from `OdometryController`. -/
def HEATMAP_DT : ℚ := 1 / 10

/-- The synthetic heatmap samples generated from one raw sample
(`getCommand` lines 786–799).  The inner loop variable shadows the outer
one, exactly as in the source: the outer loop repeats the same inner batch
`sampleCount` times, and the timestamps advance with the inner (sub-pose)
index only. -/
def heatmapSamplesFor (distanceConversion timestamp nextTimestamp : ℚ)
    (value : List ℚ) : List (ℚ × ℚ × ℚ) :=
  let sampleCount := (Int.ceil ((nextTimestamp - timestamp) / HEATMAP_DT)).toNat
  (List.range sampleCount).flatMap (fun _ =>
    if value.length % 3 = 0 then
      (List.range (value.length / 3)).map (fun (i : ℕ) =>
        (timestamp + (i : ℚ) * HEATMAP_DT,
         (value.getD (i * 3) 0 * distanceConversion,
          value.getD (i * 3 + 1) 0 * distanceConversion)))
    else [])

/-- JS `Array.findLastIndex(x => x <= t)` on a timestamp array, as an
optional index. -/
def findLastIndexLE (ts : List ℚ) (t : ℚ) : Option Nat :=
  ((List.range ts.length).filter (fun i => ts.getD i 0 ≤ t)).getLast?

/-- The heatmap branch of `getCommand` for one bound key (lines 768–801):
walk the full-history samples; for the "(Enabled)" variant (`enabledData =
some ed`) a raw sample is skipped unless the enabled series, looked up by
last-value-at-or-before its timestamp, is true; then the raw sample's
synthetic samples are generated against the next raw timestamp (the last
sample uses its own timestamp). -/
def generateHeatmapData (distanceConversion : ℚ)
    (enabledData : Option (List ℚ × List Bool))
    (timestamps : List ℚ) (values : List (List ℚ)) : List (ℚ × ℚ × ℚ) :=
  (List.range values.length).flatMap (fun index =>
    let value := values.getD index []
    let timestamp := timestamps.getD index 0
    let enabledOk : Bool :=
      match enabledData with
      | none => true
      | some ed =>
        match findLastIndexLE ed.1 timestamp with
        | none => false
        | some j => ed.2.getD j false
    if enabledOk then
      let nextTimestamp :=
        if index < timestamps.length - 1 then timestamps.getD (index + 1) 0 else timestamp
      heatmapSamplesFor distanceConversion timestamp nextTimestamp value
    else [])

/-- The heatmap minimum-spacing filter (`getCommand` lines 815–824): the
mutable `lastTimestamp` starts at 0; a sample is pushed when its timestamp
equals `lastTimestamp` or is at least `HEATMAP_DT` later, and then becomes
the new `lastTimestamp`. -/
def filterHeatmapData (heatmapData : List (ℚ × ℚ × ℚ)) : List (ℚ × ℚ) :=
  (heatmapData.foldl
    (fun (acc : List (ℚ × ℚ) × ℚ) sample =>
      if sample.1 = acc.2 ∨ sample.1 - acc.2 ≥ HEATMAP_DT then
        (acc.1 ++ [sample.2], sample.1)
      else acc)
    ([], 0)).1

/-- Claim C4 as amended, as a reference recursion: keep a sample exactly
when its timestamp equals the previously kept timestamp or is at least
`HEATMAP_DT` after it; the previously kept timestamp starts at 0. -/
def minSpacingFilter (lastTimestamp : ℚ) : List (ℚ × ℚ × ℚ) → List (ℚ × ℚ)
  | [] => []
  | sample :: rest =>
    if sample.1 = lastTimestamp ∨ sample.1 - lastTimestamp ≥ HEATMAP_DT then
      sample.2 :: minSpacingFilter sample.1 rest
    else minSpacingFilter lastTimestamp rest

/-! ## Theorems for the coordinate frame pipeline and extraction engine -/

/-- C7: for any fixed field configuration, the blue-alliance field frame has
rotation angle 0, the red-alliance rotation is about the vertical axis
`(0,0,1)` and differs from blue by exactly a half-turn (`pi` radians), and
the red translation (half the field width/height in meters) is the exact
negation of the blue translation. -/
theorem claim_c7_field_frame (fc : FieldConfig) :
    fieldFramePosition false fc = -(fieldFramePosition true fc) ∧
    (fieldFrameRotation true).2 = 0 ∧
    (fieldFrameRotation false).1 = (0, 0, 1) ∧
    (fieldFrameRotation true).1 = (0, 0, 1) ∧
    (fieldFrameRotation false).2 - (fieldFrameRotation true).2 = Real.pi := by
  refine ⟨?_, by simp [fieldFrameRotation], by simp [fieldFrameRotation],
    by simp [fieldFrameRotation], by simp [fieldFrameRotation]⟩
  simp only [fieldFramePosition, if_true, if_false, Bool.false_eq_true, Prod.neg_mk,
    Prod.mk.injEq]
  refine ⟨by ring, by ring, by ring⟩

lemma filterHeatmapData_foldl (l : List (ℚ × ℚ × ℚ)) (acc : List (ℚ × ℚ)) (last : ℚ) :
    (l.foldl
      (fun (acc : List (ℚ × ℚ) × ℚ) sample =>
        if sample.1 = acc.2 ∨ sample.1 - acc.2 ≥ HEATMAP_DT then
          (acc.1 ++ [sample.2], sample.1)
        else acc)
      (acc, last)).1 = acc ++ minSpacingFilter last l := by
  induction l generalizing acc last with
  | nil => simp [minSpacingFilter]
  | cons s rest ih =>
    simp only [List.foldl_cons, minSpacingFilter]
    by_cases h : s.1 = last ∨ s.1 - last ≥ HEATMAP_DT
    · rw [if_pos h, if_pos h, ih]
      simp
    · rw [if_neg h, if_neg h, ih]

/-- C4 counterexample: the minimum-spacing filter does not always keep the
first sample — with `lastTimestamp` initialized to 0, a lone first sample at
t = 1/20 (0 < t < dt) is dropped; and a sample exactly at the previously
kept timestamp (strictly closer than dt) is kept rather than dropped. -/
theorem claim_c4_counterexample :
    filterHeatmapData [(1 / 20, (3, 4))] = [] ∧
    filterHeatmapData [(2 / 10, (1, 1)), (2 / 10, (2, 2))] = [(1, 1), (2, 2)] := by
  constructor
  · norm_num [filterHeatmapData, HEATMAP_DT]
  · norm_num [filterHeatmapData, HEATMAP_DT]

/-- C4 (amended): the filter keeps a sample exactly when its timestamp
equals the previously kept sample's timestamp or is at least dt after it,
where the previously-kept timestamp starts at 0 (so the first sample is kept
exactly when its timestamp is 0 or at least dt). -/
theorem claim_c4_amended (heatmapData : List (ℚ × ℚ × ℚ)) :
    filterHeatmapData heatmapData = minSpacingFilter 0 heatmapData := by
  have h := filterHeatmapData_foldl heatmapData [] 0
  simpa [filterHeatmapData] using h

/-- C6: point-role decoding of the sample at-or-before `t`: a length-2 value
yields exactly one translation-only pose with rotation 0; a value whose
length is a multiple of 3 yields one pose per consecutive (x, y, heading)
triple; any other length yields an empty pose list. -/
theorem claim_c6_point_decoding (ud ur time t0 : ℚ) (ts : List ℚ) (value : List ℚ)
    (vs : List (List ℚ)) (h0 : t0 ≤ time) :
    (value.length = 2 →
        getCurrentValue ud ur time (some ⟨t0 :: ts, value :: vs⟩) =
          [{ translation := (ud * value.getD 0 0, ud * value.getD 1 0), rotation := 0 }]) ∧
    (value.length % 3 = 0 →
        (getCurrentValue ud ur time (some ⟨t0 :: ts, value :: vs⟩)).length =
            value.length / 3 ∧
        ∀ i, i < value.length / 3 →
          (getCurrentValue ud ur time (some ⟨t0 :: ts, value :: vs⟩))[i]? =
            some { translation := (ud * value.getD (3 * i) 0, ud * value.getD (3 * i + 1) 0),
                   rotation := ur * value.getD (3 * i + 2) 0 }) ∧
    (value.length ≠ 2 ∧ value.length % 3 ≠ 0 →
        getCurrentValue ud ur time (some ⟨t0 :: ts, value :: vs⟩) = []) := by
  refine ⟨?_, ?_, ?_⟩
  · intro h2
    simp [getCurrentValue, h0, h2]
  · intro h3
    have h2 : value.length ≠ 2 := by
      intro h2
      rw [h2] at h3
      exact absurd h3 (by decide)
    have hcond : t0 ≤ time ∧ (value.length = 2 ∨ value.length % 3 = 0) := ⟨h0, Or.inr h3⟩
    constructor
    · simp only [getCurrentValue, List.head?_cons, List.headD_cons]
      rw [if_pos hcond, if_neg h2]
      simp
    · intro i hi
      simp only [getCurrentValue, List.head?_cons, List.headD_cons]
      rw [if_pos hcond, if_neg h2]
      rw [List.getElem?_map, List.getElem?_range hi]
      rfl
  · rintro ⟨h2, h3⟩
    have hcond : ¬(t0 ≤ time ∧ (value.length = 2 ∨ value.length % 3 = 0)) := by
      rintro ⟨-, h4 | h4⟩
      · exact h2 h4
      · exact h3 h4
    simp [getCurrentValue, hcond]

/-- C6 witness: a 14-length numeric value (not length 2, not a multiple of
3) decodes to the empty pose list. -/
theorem claim_c6_witness :
    getCurrentValue 1 1 5 (some ⟨[3], [List.replicate 14 1]⟩) = [] := by
  exact (claim_c6_point_decoding 1 1 5 3 [] (List.replicate 14 1) [] (by norm_num)).2.2
    (by decide)

lemma length_flatMap_const {α β : Type} (l : List α) (xs : List β) :
    (l.flatMap (fun _ => xs)).length = l.length * xs.length := by
  induction l with
  | nil => simp
  | cons a l ih => simp [ih, Nat.succ_mul, Nat.add_comm]

/-- C5 counterexample: with two raw samples dt apart whose values encode two
sub-poses each (length 6), resampling emits 2 synthetic samples, not the
`ceil(D / dt) = 1 + 0` the claim predicts for the two intervals. -/
theorem claim_c5_counterexample :
    (generateHeatmapData 1 none [0, 1 / 10] [[1, 2, 3, 4, 5, 6], [7, 8, 9, 10, 11, 12]]).length
        = 2 ∧
    (Int.ceil ((((1 : ℚ) / 10) - 0) / HEATMAP_DT)).toNat
        + (Int.ceil ((((1 : ℚ) / 10) - 1 / 10) / HEATMAP_DT)).toNat = 1 := by
  constructor
  · norm_num [generateHeatmapData, heatmapSamplesFor, HEATMAP_DT, List.range_succ]
  · norm_num [HEATMAP_DT]

/-- C5 (amended): a raw sample interval of duration D emits
`ceil(D / dt) * (L / 3)` synthetic samples when the value length L is a
multiple of 3 and none otherwise; every emitted sample is stamped
`t0 + i * dt` for some sub-pose index `i < L / 3` (the same batch repeats
each outer iteration, so stamps do not advance through the interval) and
carries that sub-pose's own translation. -/
theorem claim_c5_amended (dc t nt : ℚ) (value : List ℚ) :
    (value.length % 3 = 0 →
        (heatmapSamplesFor dc t nt value).length =
          (Int.ceil ((nt - t) / HEATMAP_DT)).toNat * (value.length / 3)) ∧
    (value.length % 3 ≠ 0 → heatmapSamplesFor dc t nt value = []) ∧
    (∀ p ∈ heatmapSamplesFor dc t nt value, ∃ i < value.length / 3,
        p = (t + (i : ℚ) * HEATMAP_DT,
             (value.getD (i * 3) 0 * dc, value.getD (i * 3 + 1) 0 * dc))) := by
  refine ⟨?_, ?_, ?_⟩
  · intro h3
    simp only [heatmapSamplesFor, if_pos h3]
    rw [length_flatMap_const]
    simp
  · intro h3
    simp only [heatmapSamplesFor, if_neg h3]
    rw [← List.length_eq_zero, length_flatMap_const]
    simp
  · intro p hp
    simp only [heatmapSamplesFor] at hp
    rw [List.mem_flatMap] at hp
    obtain ⟨a, _, hpa⟩ := hp
    by_cases h3 : value.length % 3 = 0
    · rw [if_pos h3, List.mem_map] at hpa
      obtain ⟨i, hi, rfl⟩ := hpa
      exact ⟨i, List.mem_range.mp hi, rfl⟩
    · rw [if_neg h3] at hpa
      simp at hpa

/-- C5 witness: two raw samples 1.0 s apart, each encoding a single pose,
emit exactly 10 synthetic samples. -/
theorem claim_c5_amended_witness :
    (heatmapSamplesFor 1 0 1 [1, 2, 3]).length = 10 := by
  have h := (claim_c5_amended 1 0 1 [1, 2, 3]).1 (by decide)
  rw [h]
  norm_num [HEATMAP_DT]
  decide

/-- C8: the trail trim drops at most the single outermost sample on each
side — the first exactly when it is more than the window length before
`time`, and the last of what remains exactly when it is more than the
window length after `time`; and on returned timestamps
`[t−6, t−3, t+2, t+7]` the kept timestamps are exactly `[t−3, t+2]`. -/
theorem claim_c8_trail_trim (time : ℚ) (ts : List ℚ) (vs : List (List ℚ)) :
    (∃ df db : Nat, df ≤ 1 ∧ db ≤ 1 ∧
      (trimTrail time (ts, vs)).1 =
        (if db = 1 then (ts.drop df).dropLast else ts.drop df) ∧
      (df = 1 ↔ ∃ t0, ts.head? = some t0 ∧ time - t0 > TRAIL_LENGTH_SECS) ∧
      (db = 1 ↔ ∃ tl, (ts.drop df).getLast? = some tl ∧
        tl - time > TRAIL_LENGTH_SECS)) ∧
    (trimTrail time ([time - 6, time - 3, time + 2, time + 7], vs)).1 =
      [time - 3, time + 2] := by
  constructor
  · match ts with
    | [] =>
      refine ⟨0, 0, by norm_num, by norm_num, ?_, by simp, by simp [trimTrail]⟩
      simp [trimTrail]
    | t0 :: rest =>
      by_cases c1 : time - t0 > TRAIL_LENGTH_SECS
      · rcases hLast : rest.getLast? with - | tl
        · have hrest : rest = [] := by
            exact List.getLast?_eq_none_iff.mp hLast
          subst hrest
          refine ⟨1, 0, le_refl 1, by norm_num, ?_, ?_, ?_⟩
          · simp [trimTrail, c1]
          · simp [c1]
          · simp
        · by_cases c2 : tl - time > TRAIL_LENGTH_SECS
          · refine ⟨1, 1, le_refl 1, le_refl 1, ?_, ?_, ?_⟩
            · simp [trimTrail, c1, hLast, c2]
            · simp [c1]
            · simp [hLast, c2]
          · refine ⟨1, 0, le_refl 1, by norm_num, ?_, ?_, ?_⟩
            · simp [trimTrail, c1, hLast, c2]
            · simp [c1]
            · simp only [List.drop_one, List.tail_cons, hLast]
              constructor
              · intro h
                exact absurd h (by norm_num)
              · rintro ⟨tl', htl', hgt⟩
                rw [Option.some_inj] at htl'
                subst htl'
                exact absurd hgt c2
      · rcases hLast : (t0 :: rest).getLast? with - | tl
        · exact absurd hLast (by simp)
        · by_cases c2 : tl - time > TRAIL_LENGTH_SECS
          · refine ⟨0, 1, by norm_num, le_refl 1, ?_, ?_, ?_⟩
            · simp [trimTrail, c1, hLast, c2]
            · simp [c1]
            · simp [hLast, c2]
          · refine ⟨0, 0, by norm_num, by norm_num, ?_, ?_, ?_⟩
            · simp [trimTrail, c1, hLast, c2]
            · simp [c1]
            · simp only [List.drop_zero, hLast]
              constructor
              · intro h
                exact absurd h (by norm_num)
              · rintro ⟨tl', htl', hgt⟩
                rw [Option.some_inj] at htl'
                subst htl'
                exact absurd hgt c2
  · norm_num [trimTrail, TRAIL_LENGTH_SECS, List.getLast?]

/-! ## Asset lifecycle and render-loop state machine

`ThreeDimensionVisualizer`'s mutable fields become an explicit state record.
Scene nodes (`gltf.scene` objects) are identified by the id of the load that
produced them (`nextObjectId` mints fresh ids); `coordChildren` are the
field models attached to `wpilibCoordinateGroup` and `fieldChildren` the
robot models attached to `wpilibFieldCoordinateGroup`.  The source compares
the catalog by `JSON.stringify`; per the spec's design note this is
structural equality, so `lastFrcDataString` becomes `lastFrcData : Option
FrcData` (`none` for the initial empty string).  The cone sets and the
actual WebGL draw are not modelled: no claim mentions them. -/

/-- The per-frame command produced by the controller, restricted to the
fields the visualizer's asset/pose logic reads (`options.field`,
`options.robot`, `options.alliance`, `poses.robot`). -/
structure Command where
  field : String
  robot : String
  alliance : String
  robotPose : Option Pose3dQ
  deriving DecidableEq, Repr

/-- The camera view selected by the camera section of `renderFrame`:
free orbit (index −1, default origin), robot-relative orbit (index ≤ −2 with
a robot node present), orbit with the previous origin kept (index ≤ −2 and
no robot node, lines 403–417 change nothing), or a fixed robot camera. -/
inductive CameraView where
  | orbitFree
  | orbitRobot
  | orbitUnchanged
  | fixed (index : Nat)
  deriving DecidableEq, Repr

/-- The visualizer state (`ThreeDimensionVisualizer`'s mutable fields plus
the scene-graph children and in-flight loads). -/
structure VizState where
  nextObjectId : Nat
  field : Option Nat
  robot : Option Nat
  robotCameras : List CameraConfig
  coordChildren : List Nat
  fieldChildren : List Nat
  lastFieldTitle : String
  lastRobotTitle : String
  lastFrcData : Option FrcData
  lastRobotVisible : Bool
  robotPoseApplied : Option Pose3dQ
  pendingFieldLoads : List (Nat × FieldConfig)
  pendingRobotLoads : List (Nat × RobotConfig)
  cameraIndex : Int
  lastCameraIndex : Int
  shouldRender : Bool
  fieldGroupPosition : ℚ × ℚ × ℚ
  fieldGroupHalfTurn : Bool
  deriving DecidableEq, Repr

/-- The constructor-time state of the visualizer. -/
def initialState : VizState where
  nextObjectId := 0
  field := none
  robot := none
  robotCameras := []
  coordChildren := []
  fieldChildren := []
  lastFieldTitle := ""
  lastRobotTitle := ""
  lastFrcData := none
  lastRobotVisible := false
  robotPoseApplied := none
  pendingFieldLoads := []
  pendingRobotLoads := []
  cameraIndex := -1
  lastCameraIndex := -1
  shouldRender := false
  fieldGroupPosition := (0, 0, 0)
  fieldGroupHalfTurn := false

/-- `set3DCamera` (lines 162–165). -/
def set3DCamera (index : Int) (s : VizState) : VizState :=
  { s with cameraIndex := index, shouldRender := true }

/-- The "Add field" section of `renderFrame` (lines 238–255): on a title
change the old field node is removed from `wpilibCoordinateGroup`
immediately and an asynchronous load is issued; `this.field` keeps pointing
at the old node until a load completes. -/
def addFieldStep (fieldConfig : FieldConfig) (cmd : Command) (s : VizState) : VizState :=
  if cmd.field ≠ s.lastFieldTitle then
    { s with
      lastFieldTitle := cmd.field
      coordChildren := match s.field with
        | some f => s.coordChildren.erase f
        | none => s.coordChildren
      pendingFieldLoads := s.pendingFieldLoads ++ [(s.nextObjectId, fieldConfig)]
      nextObjectId := s.nextObjectId + 1 }
  else s

/-- The "Add robot" section of `renderFrame` (lines 257–303): on a title
change or new catalog data, the old robot node is removed from
`wpilibFieldCoordinateGroup` (only if it was attached), the robot pointer
and camera list are cleared, and an asynchronous load is issued. -/
def addRobotStep (robotConfig : RobotConfig) (cmd : Command) (newFrcData : Bool)
    (s : VizState) : VizState :=
  if cmd.robot ≠ s.lastRobotTitle ∨ newFrcData = true then
    { s with
      lastRobotTitle := cmd.robot
      fieldChildren := match s.robot with
        | some r => if s.lastRobotVisible then s.fieldChildren.erase r else s.fieldChildren
        | none => s.fieldChildren
      robot := none
      robotCameras := []
      pendingRobotLoads := s.pendingRobotLoads ++ [(s.nextObjectId, robotConfig)]
      nextObjectId := s.nextObjectId + 1 }
  else s

/-- The "Update field coordinates" section of `renderFrame` (lines 305–314). -/
def updateFieldCoordinatesStep (fieldConfig : FieldConfig) (cmd : Command)
    (s : VizState) : VizState :=
  let isBlue := cmd.alliance == "blue"
  { s with
    fieldGroupPosition := fieldFramePosition isBlue fieldConfig
    fieldGroupHalfTurn := !isBlue }

/-- The "Set robot position" section of `renderFrame` (lines 316–334): with
a loaded robot node, a present pose re-attaches the node when it was not
visible and applies the pose; an absent pose detaches the node when it was
visible; `lastRobotVisible` records the pose's presence. -/
def setRobotPoseStep (cmd : Command) (s : VizState) : VizState :=
  match s.robot with
  | none => s
  | some r =>
    match cmd.robotPose with
    | some pose =>
      let s1 := if !s.lastRobotVisible then { s with fieldChildren := s.fieldChildren ++ [r] }
        else s
      { s1 with robotPoseApplied := some pose, lastRobotVisible := true }
    | none =>
      let s1 := if s.lastRobotVisible then { s with fieldChildren := s.fieldChildren.erase r }
        else s
      { s1 with lastRobotVisible := false }

/-- The camera-index clamp and view choice of `renderFrame` (lines 386–426):
an index at or past the loaded camera count resets to −1; a negative index
is an orbit view (−1 resets the coordinate group to the default origin, any
other negative index re-centers on the robot when one is present and
otherwise changes nothing); a remaining index selects that fixed camera. -/
def resolveCameraView (cameraIndex : Int) (numCameras : Nat) (robotPresent : Bool) :
    Int × CameraView :=
  let ci := if cameraIndex ≥ (numCameras : Int) then -1 else cameraIndex
  if ci < 0 then
    (ci, if ci = -1 then CameraView.orbitFree
      else if robotPresent then CameraView.orbitRobot else CameraView.orbitUnchanged)
  else (ci, CameraView.fixed ci.toNat)

/-- The camera section's state effect (lines 388 and 453): the possibly
clamped index is written back and recorded as `lastCameraIndex`. -/
def cameraStep (s : VizState) : VizState :=
  let r := resolveCameraView s.cameraIndex s.robotCameras.length s.robot.isSome
  { s with cameraIndex := r.1, lastCameraIndex := r.1 }

/-- The body of `renderFrame` once its scheduling gates have passed (lines
222 onward): clear `shouldRender`, look up both configs (returning early
when either is missing), detect new catalog data, then run the section
updates in source order. -/
def renderFrame (frcData : FrcData) (cmd : Command) (s0 : VizState) : VizState :=
  let s := { s0 with shouldRender := false }
  match frcData.field3ds.find? (fun f => f.title == cmd.field),
        frcData.robots.find? (fun r => r.title == cmd.robot) with
  | some fieldConfig, some robotConfig =>
    let newFrcData := decide (some frcData ≠ s.lastFrcData)
    let s1 := { s with lastFrcData :=
      if newFrcData then some frcData else s.lastFrcData }
    let s2 := addFieldStep fieldConfig cmd s1
    let s3 := addRobotStep robotConfig cmd newFrcData s2
    let s4 := updateFieldCoordinatesStep fieldConfig cmd s3
    let s5 := setRobotPoseStep cmd s4
    cameraStep s5
  | _, _ => s

/-- The field `GLTFLoader` completion callback (lines 244–254): install the
fresh scene as `this.field`, attach it to `wpilibCoordinateGroup` and flag a
redraw.  The callback's `fieldConfig == undefined` guard can never fire (the
captured config was checked before the load was issued), so it performs no
staleness check; a completion whose id is no longer pending is a no-op
(a promise fires once). -/
def completeFieldLoad (id : Nat) (s : VizState) : VizState :=
  match s.pendingFieldLoads.find? (fun p => p.1 == id) with
  | none => s
  | some _ =>
    { s with
      pendingFieldLoads := s.pendingFieldLoads.filter (fun p => p.1 ≠ id)
      field := some id
      coordChildren := s.coordChildren ++ [id]
      shouldRender := true }

/-- The robot `GLTFLoader` completion callback (lines 267–302): build the
group, install it as `this.robot`, attach it only if the robot was visible,
create the camera mount objects and flag a redraw.  As with the field, the
`robotConfig == undefined` guard can never fire, so no staleness check
happens. -/
def completeRobotLoad (id : Nat) (s : VizState) : VizState :=
  match s.pendingRobotLoads.find? (fun p => p.1 == id) with
  | none => s
  | some p =>
    { s with
      pendingRobotLoads := s.pendingRobotLoads.filter (fun q => q.1 ≠ id)
      robot := some id
      robotPoseApplied := none
      fieldChildren := if s.lastRobotVisible then s.fieldChildren ++ [id] else s.fieldChildren
      robotCameras := p.2.cameras
      shouldRender := true }

/-- An event of the single-threaded render loop: a gated `renderFrame`
execution or one asynchronous load completion. -/
inductive VizEvent where
  | render (frcData : FrcData) (cmd : Command)
  | fieldLoadComplete (id : Nat)
  | robotLoadComplete (id : Nat)

/-- Apply one event to the state. -/
def applyEvent (s : VizState) (e : VizEvent) : VizState :=
  match e with
  | .render frcData cmd => renderFrame frcData cmd s
  | .fieldLoadComplete id => completeFieldLoad id s
  | .robotLoadComplete id => completeRobotLoad id s

/-- Run a sequence of events from a state. -/
def runEvents (s : VizState) (events : List VizEvent) : VizState :=
  events.foldl applyEvent s

/-! ## Concrete scenario data -/

/-- Field asset "F". -/
def fieldF : FieldConfig := ⟨"F", "f.glb", [], 500, 300⟩

/-- Field asset "G". -/
def fieldG : FieldConfig := ⟨"G", "g.glb", [], 500, 300⟩

/-- Robot asset "A". -/
def robotA : RobotConfig := ⟨"A", "a.glb", [], (0, 0, 0), []⟩

/-- Robot asset "B". -/
def robotB : RobotConfig := ⟨"B", "b.glb", [], (0, 0, 0), []⟩

/-- A catalog holding both fields and both robots. -/
def frcD : FrcData := ⟨[fieldF, fieldG], [robotA, robotB]⟩

/-- An arbitrary robot pose. -/
def poseP : Pose3dQ := ⟨(1, 2, 0), (1, 0, 0, 0)⟩

/-- Command selecting field "F" and robot "A", no robot pose. -/
def cmdA : Command := ⟨"F", "A", "blue", none⟩

/-- Command selecting field "F" and robot "B", with a robot pose. -/
def cmdB : Command := ⟨"F", "B", "blue", some poseP⟩

/-- Command selecting field "G" and robot "A", no robot pose. -/
def cmdG : Command := ⟨"G", "A", "blue", none⟩

/-- C1: the load-completion callbacks perform no re-validation against the
then-current desired id, contradicting the spec's required
staleness-check-then-discard: with the robot id changed from "A" (load id 1,
still pending) to "B" (load id 2), the completion of "A"'s load installs the
stale node as the current robot, and after "B"'s load completes two robot
nodes — ids 1 and 2 — are attached to the field coordinate group instead of
exactly one. -/
theorem claim_c1_stale_load_bug :
    (runEvents initialState [.render frcD cmdA, .render frcD cmdB]).lastRobotTitle = "B" ∧
    (runEvents initialState
      [.render frcD cmdA, .render frcD cmdB]).pendingRobotLoads.map Prod.fst = [1, 2] ∧
    (runEvents initialState
      [.render frcD cmdA, .render frcD cmdB, .robotLoadComplete 1]).robot = some 1 ∧
    (runEvents initialState
      [.render frcD cmdA, .render frcD cmdB, .robotLoadComplete 1, .render frcD cmdB,
       .robotLoadComplete 2]).fieldChildren = [1, 2] := by
  refine ⟨?_, ?_, ?_, ?_⟩ <;>
    simp [runEvents, applyEvent, renderFrame, completeFieldLoad, completeRobotLoad,
      addFieldStep, addRobotStep, updateFieldCoordinatesStep, setRobotPoseStep, cameraStep,
      resolveCameraView, initialState, frcD, fieldF, fieldG, robotA, robotB, cmdA, cmdB,
      poseP, List.find?, List.filter]

/-- C2 counterexample: after field "F"'s node (id 0) has been installed,
switching the requested field id to "G" removes the old node immediately as
the load is issued: in the reached state the load for "G" is still in
flight, the requested id is not "none", and yet no field node is attached to
the scene. -/
theorem claim_c2_counterexample :
    (runEvents initialState [.render frcD cmdA, .fieldLoadComplete 0]).coordChildren = [0] ∧
    (runEvents initialState
      [.render frcD cmdA, .fieldLoadComplete 0, .render frcD cmdG]).coordChildren = [] ∧
    (runEvents initialState
      [.render frcD cmdA, .fieldLoadComplete 0,
       .render frcD cmdG]).pendingFieldLoads.map Prod.fst = [2] ∧
    cmdG.field ≠ "none" := by
  refine ⟨?_, ?_, ?_, ?_⟩ <;>
    simp [runEvents, applyEvent, renderFrame, completeFieldLoad, completeRobotLoad,
      addFieldStep, addRobotStep, updateFieldCoordinatesStep, setRobotPoseStep, cameraStep,
      resolveCameraView, initialState, frcD, fieldF, fieldG, robotA, robotB, cmdA, cmdG,
      List.find?, List.filter]

/-- C2 (amended): the previous node does not remain attached while a load is
in flight — when the requested field id changes, `renderFrame` removes the
old field node from the scene at the moment it issues the load, and likewise
removes the visible robot node when the robot id changes, so neither the old
nor the new node is attached until the new load completes, even though the
requested id is not "none". -/
theorem claim_c2_amended (frcData : FrcData) (cmd : Command) (s : VizState)
    (fc : FieldConfig) (rc : RobotConfig) (fnode rnode : Nat)
    (hf : frcData.field3ds.find? (fun f => f.title == cmd.field) = some fc)
    (hr : frcData.robots.find? (fun r => r.title == cmd.robot) = some rc)
    (hfield : s.field = some fnode) (hrobot : s.robot = some rnode)
    (hft : cmd.field ≠ s.lastFieldTitle) (hrt : cmd.robot ≠ s.lastRobotTitle)
    (hvis : s.lastRobotVisible = true) :
    (renderFrame frcData cmd s).coordChildren = s.coordChildren.erase fnode ∧
    (renderFrame frcData cmd s).pendingFieldLoads =
      s.pendingFieldLoads ++ [(s.nextObjectId, fc)] ∧
    (renderFrame frcData cmd s).fieldChildren = s.fieldChildren.erase rnode ∧
    (renderFrame frcData cmd s).robot = none ∧
    (renderFrame frcData cmd s).pendingRobotLoads =
      s.pendingRobotLoads ++ [(s.nextObjectId + 1, rc)] := by
  refine ⟨?_, ?_, ?_, ?_, ?_⟩ <;>
    simp [renderFrame, hf, hr, addFieldStep, addRobotStep, updateFieldCoordinatesStep,
      setRobotPoseStep, cameraStep, resolveCameraView, hfield, hrobot, hft, hrt, hvis]

/-- C2 amended witness: a concrete state with field node 7 and visible robot
node 8 installed; switching to field "G" and robot "B" detaches both nodes
while both loads are in flight. -/
theorem claim_c2_amended_witness :
    (renderFrame frcD ⟨"G", "B", "blue", none⟩
      { initialState with
        field := some 7, robot := some 8, lastRobotVisible := true,
        coordChildren := [7], fieldChildren := [8],
        lastFieldTitle := "F", lastRobotTitle := "A",
        lastFrcData := some frcD, nextObjectId := 9 }).coordChildren = [7].erase 7 ∧
    (renderFrame frcD ⟨"G", "B", "blue", none⟩
      { initialState with
        field := some 7, robot := some 8, lastRobotVisible := true,
        coordChildren := [7], fieldChildren := [8],
        lastFieldTitle := "F", lastRobotTitle := "A",
        lastFrcData := some frcD, nextObjectId := 9 }).fieldChildren = [8].erase 8 ∧
    (renderFrame frcD ⟨"G", "B", "blue", none⟩
      { initialState with
        field := some 7, robot := some 8, lastRobotVisible := true,
        coordChildren := [7], fieldChildren := [8],
        lastFieldTitle := "F", lastRobotTitle := "A",
        lastFrcData := some frcD, nextObjectId := 9 }).robot = none := by
  have h := claim_c2_amended frcD ⟨"G", "B", "blue", none⟩
    { initialState with
      field := some 7, robot := some 8, lastRobotVisible := true,
      coordChildren := [7], fieldChildren := [8],
      lastFieldTitle := "F", lastRobotTitle := "A",
      lastFrcData := some frcD, nextObjectId := 9 }
    fieldG robotB 7 8
    (by simp [frcD, fieldF, fieldG, List.find?]) (by simp [frcD, robotA, robotB, List.find?])
    rfl rfl (by simp [initialState]) (by simp [initialState]) rfl
  exact ⟨h.1, h.2.2.1, h.2.2.2.1⟩

/-- C9 counterexample: camera index −2 with a robot present (and 2 declared
cameras) yields the robot-relative orbit view, not the free orbit view,
although −2 < 0. -/
theorem claim_c9_counterexample :
    (resolveCameraView (-2) 2 true).2 = CameraView.orbitRobot ∧
    CameraView.orbitRobot ≠ CameraView.orbitFree := by
  constructor
  · rfl
  · decide

/-- C9 (amended): the camera state machine uses fixed camera i exactly when
0 ≤ i < N; any i ≥ N is clamped back to −1, the free orbit view; i = −1 is
the free orbit view; any other negative index gives an orbit view that is
robot-relative when a robot node is present (and otherwise keeps the
previous framing), not the free orbit view. -/
theorem claim_c9_amended (i : Int) (numCameras : Nat) (robotPresent : Bool) :
    (i ≥ (numCameras : Int) →
      resolveCameraView i numCameras robotPresent = (-1, CameraView.orbitFree)) ∧
    (0 ≤ i → i < (numCameras : Int) →
      resolveCameraView i numCameras robotPresent = (i, CameraView.fixed i.toNat)) ∧
    (i = -1 → resolveCameraView i numCameras robotPresent = (-1, CameraView.orbitFree)) ∧
    (i < -1 → robotPresent = true →
      resolveCameraView i numCameras robotPresent = (i, CameraView.orbitRobot)) ∧
    (i < -1 → robotPresent = false →
      resolveCameraView i numCameras robotPresent = (i, CameraView.orbitUnchanged)) := by
  refine ⟨?_, ?_, ?_, ?_, ?_⟩
  · intro h
    simp only [resolveCameraView, if_pos h]
    norm_num
  · intro h0 hn
    have h1 : ¬(i ≥ (numCameras : Int)) := by omega
    have h2 : ¬(i < 0) := by omega
    simp only [resolveCameraView, if_neg h1, if_neg h2]
  · intro h
    subst h
    have h1 : ¬((-1 : Int) ≥ (numCameras : Int)) := by omega
    simp only [resolveCameraView, if_neg h1]
    norm_num
  · intro h hb
    subst hb
    have h1 : ¬(i ≥ (numCameras : Int)) := by omega
    have h2 : i < 0 := by omega
    have h3 : i ≠ -1 := by omega
    simp only [resolveCameraView, if_neg h1, if_pos h2, if_neg h3]
    simp
  · intro h hb
    subst hb
    have h1 : ¬(i ≥ (numCameras : Int)) := by omega
    have h2 : i < 0 := by omega
    have h3 : i ≠ -1 := by omega
    simp only [resolveCameraView, if_neg h1, if_pos h2, if_neg h3]
    simp

/-- C9 amended witness: the claim's scenario — index 2 while the robot asset
declares only cameras 0 and 1 — clamps to −1, the free orbit view. -/
theorem claim_c9_amended_witness :
    resolveCameraView 2 2 true = (-1, CameraView.orbitFree) :=
  (claim_c9_amended 2 2 true).1 (by norm_num)

/-- C10: with a loaded robot node and no pending changes to titles or
catalog, a frame whose telemetry robot pose is absent detaches the robot
node from the field coordinate group and records it as not visible; a frame
whose pose is present while the robot was not visible re-attaches the very
same node without issuing any new load, and applies that pose's position and
rotation to it. -/
theorem claim_c10_robot_visibility (frcData : FrcData) (cmd : Command) (s : VizState)
    (fc : FieldConfig) (rc : RobotConfig) (r : Nat)
    (hf : frcData.field3ds.find? (fun f => f.title == cmd.field) = some fc)
    (hr : frcData.robots.find? (fun rr => rr.title == cmd.robot) = some rc)
    (hft : cmd.field = s.lastFieldTitle) (hrt : cmd.robot = s.lastRobotTitle)
    (hdata : s.lastFrcData = some frcData)
    (hrobot : s.robot = some r) :
    (cmd.robotPose = none → s.lastRobotVisible = true →
      (renderFrame frcData cmd s).fieldChildren = s.fieldChildren.erase r ∧
      (renderFrame frcData cmd s).lastRobotVisible = false ∧
      (renderFrame frcData cmd s).robot = some r ∧
      (renderFrame frcData cmd s).pendingRobotLoads = s.pendingRobotLoads ∧
      (renderFrame frcData cmd s).pendingFieldLoads = s.pendingFieldLoads) ∧
    (∀ p, cmd.robotPose = some p → s.lastRobotVisible = false →
      (renderFrame frcData cmd s).fieldChildren = s.fieldChildren ++ [r] ∧
      (renderFrame frcData cmd s).lastRobotVisible = true ∧
      (renderFrame frcData cmd s).robot = some r ∧
      (renderFrame frcData cmd s).robotPoseApplied = some p ∧
      (renderFrame frcData cmd s).pendingRobotLoads = s.pendingRobotLoads ∧
      (renderFrame frcData cmd s).pendingFieldLoads = s.pendingFieldLoads) := by
  constructor
  · intro hp hv
    refine ⟨?_, ?_, ?_, ?_, ?_⟩ <;>
      · simp only [renderFrame, hf, hr]
        simp [addFieldStep, addRobotStep, updateFieldCoordinatesStep, setRobotPoseStep,
          cameraStep, resolveCameraView, hft, hrt, hdata, hrobot, hp, hv]
  · intro p hp hv
    refine ⟨?_, ?_, ?_, ?_, ?_, ?_⟩ <;>
      · simp only [renderFrame, hf, hr]
        simp [addFieldStep, addRobotStep, updateFieldCoordinatesStep, setRobotPoseStep,
          cameraStep, resolveCameraView, hft, hrt, hdata, hrobot, hp, hv]

/-- C10 witness: robot node 3 loaded, not visible, titles and catalog
unchanged; a frame carrying a pose attaches node 3, applies the pose, and
issues no load. -/
theorem claim_c10_witness :
    (renderFrame frcD ⟨"F", "A", "blue", some poseP⟩
      { initialState with
        robot := some 3, lastFieldTitle := "F", lastRobotTitle := "A",
        lastFrcData := some frcD }).fieldChildren = [] ++ [3] ∧
    (renderFrame frcD ⟨"F", "A", "blue", some poseP⟩
      { initialState with
        robot := some 3, lastFieldTitle := "F", lastRobotTitle := "A",
        lastFrcData := some frcD }).robotPoseApplied = some poseP ∧
    (renderFrame frcD ⟨"F", "A", "blue", some poseP⟩
      { initialState with
        robot := some 3, lastFieldTitle := "F", lastRobotTitle := "A",
        lastFrcData := some frcD }).pendingRobotLoads = [] := by
  have h := (claim_c10_robot_visibility frcD ⟨"F", "A", "blue", some poseP⟩
    { initialState with
      robot := some 3, lastFieldTitle := "F", lastRobotTitle := "A",
      lastFrcData := some frcD }
    fieldF robotA 3
    (by simp [frcD, fieldF, fieldG, List.find?]) (by simp [frcD, robotA, robotB, List.find?])
    rfl rfl rfl rfl).2 poseP rfl rfl
  exact ⟨h.1, h.2.2.2.1, h.2.2.2.2.1⟩

end AdvantageScope
